import Mathlib

/-!
Verification of the anti-bot-resistant crawl client of the
Douyin/Bilibili analysis repository.

The definitions below are shallow embeddings of the Python source:

* `DouyinSpider._splice_url`, `DouyinSpider._sort_params` and the fixed
  parameter-order table (douyin_spider.py, canonical query construction);
* `DouyinSpider._generate_a_bogus` and the unsigned-request fallback of
  `_get_video_info_via_api`;
* the deduplication loop of `DouyinSpider.crawl_with_selenium` /
  `BilibiliSpider.search_videos_with_selenium`;
* `BilibiliSpider._make_request` together with the urllib3 `Retry`
  adapter mounted on the session;
* `DouyinSpider._validate_interaction_data`;
* the detail-page counter merge of `DouyinSpider._parse_selenium_element`;
* the free-text counter patterns and `_parse_count` of both spiders;
* the login-wait / verification loop of `DouyinSpider.crawl_with_selenium`.

Python dictionaries are modelled as association lists whose keys are
pairwise distinct, machine integers as `Int`/`Nat` (Python integers are
unbounded), and `None`-able results as `Option`.
-/

/-! ## URL encoding (`urllib.parse.quote` with the default `safe='/'`) -/

/-- The characters `urllib.parse.quote` never encodes: ASCII letters and
digits, `_.-~`, and the default safe character `/`. -/
def isQuoteSafe (c : Char) : Bool :=
  c.isAlpha || c.isDigit || c = '_' || c = '.' || c = '-' || c = '~' || c = '/'

/-- Upper-case hexadecimal digit, as used by `urllib.parse.quote`. -/
def hexDigitChar (n : Nat) : Char :=
  if n < 10 then Char.ofNat ('0'.toNat + n) else Char.ofNat ('A'.toNat + (n - 10))

/-- UTF-8 encoding of one code point, as a list of byte values. -/
def utf8Bytes (c : Char) : List Nat :=
  let n := c.toNat
  if n < 0x80 then [n]
  else if n < 0x800 then [0xC0 + n / 0x40, 0x80 + n % 0x40]
  else if n < 0x10000 then
    [0xE0 + n / 0x1000, 0x80 + (n / 0x40) % 0x40, 0x80 + n % 0x40]
  else
    [0xF0 + n / 0x40000, 0x80 + (n / 0x1000) % 0x40, 0x80 + (n / 0x40) % 0x40,
      0x80 + n % 0x40]

/-- `%XX` escape of one byte. -/
def percentByte (b : Nat) : String :=
  "%" ++ String.singleton (hexDigitChar (b / 16)) ++ String.singleton (hexDigitChar (b % 16))

/-- `urllib.parse.quote`: safe characters pass through, every other
character is replaced by the `%XX` escapes of its UTF-8 bytes. -/
def pyQuote (s : String) : String :=
  String.join (s.data.map fun c =>
    if isQuoteSafe c then String.singleton c
    else String.join ((utf8Bytes c).map percentByte))

/-- Python's `s[:-1]`: the string without its last character. -/
def dropLastChar (s : String) : String := ⟨s.data.dropLast⟩

namespace DouyinSpider

/-! ## Canonical query construction (douyin_spider.py) -/

/-- `DouyinSpider._splice_url`: serialize parameters as
`key=quote(value)` pairs, each followed by `&`, then drop the trailing
`&`. -/
def spliceUrl (params : List (String × String)) : String :=
  dropLastChar (params.foldl (fun acc p => acc ++ p.1 ++ "=" ++ pyQuote p.2 ++ "&") "")

/-- First loop of `DouyinSpider._sort_params`: walk the order table and
copy each table key that is present in `params` (with its value) into
the result dictionary.  Insertion models Python `dict` assignment, so a
key is never added twice. -/
def orderPass (params : List (String × String)) (order : List String) :
    List (String × String) :=
  order.foldl (fun acc k =>
    match params.find? (fun p => p.1 == k) with
    | some p => if acc.any (fun q => q.1 == k) then acc else acc ++ [(k, p.2)]
    | none => acc) ([] : List (String × String))

/-- Second loop of `DouyinSpider._sort_params`: append every parameter
whose key is not yet in the result dictionary, in original order. -/
def appendPass (params : List (String × String)) (start : List (String × String)) :
    List (String × String) :=
  params.foldl (fun acc p => if acc.any (fun q => q.1 == p.1) then acc else acc ++ [p])
    start

/-- The body of `DouyinSpider._sort_params`, with the platform order
table as an explicit argument. -/
def sortParamsWith (order : List String) (params : List (String × String)) :
    List (String × String) :=
  appendPass params (orderPass params order)

/-- The fixed parameter order table of `DouyinSpider._sort_params`. -/
def paramOrderTable : List String :=
  ["device_platform", "aid", "channel", "publish_video_strategy_type", "source",
   "sec_user_id", "personal_center_strategy", "update_version_code", "pc_client_type",
   "version_code", "version_name", "cookie_enabled", "screen_width", "screen_height",
   "browser_language", "browser_platform", "browser_name", "browser_version",
   "browser_online", "engine_name", "engine_version", "os_name", "os_version",
   "cpu_core_num", "device_memory", "platform", "downlink", "effective_type",
   "round_trip_time", "webid", "verifyFp", "fp", "msToken", "a_bogus",
   "aweme_id", "search_channel", "keyword", "offset", "count", "filter_selected",
   "enable_history", "search_source", "query_correct_type", "is_filter_search",
   "from_group_id", "need_filter_settings", "list_type"]

/-- `DouyinSpider._sort_params`. -/
def sortParams (params : List (String × String)) : List (String × String) :=
  sortParamsWith paramOrderTable params

/-- Serialized `key=quote(value)` pair of one parameter. -/
def pairStr (p : String × String) : String := p.1 ++ "=" ++ pyQuote p.2

/-- Join strings with `&` separators. -/
def ampJoin : List String → String
  | [] => ""
  | [x] => x
  | x :: y :: xs => x ++ "&" ++ ampJoin (y :: xs)

/-- Join strings, each followed by a trailing `&`. -/
def ampTrail : List String → String
  | [] => ""
  | x :: xs => x ++ "&" ++ ampTrail xs

/-! ## Signature engine (`_generate_a_bogus` and the unsigned fallback) -/

/-- The loaded `execjs` bundle handle (`self.dy_js`): calling it either
returns a signature token or fails with an exception, modelled as
`Option`. -/
def SigEngine : Type := String → String → Option String

/-- `DouyinSpider._generate_a_bogus`: returns `None` when the engine
handle is `None` (bundle missing or compilation failed at construction)
and when the engine call itself fails; never raises. -/
def generateABogus (dyJs : Option SigEngine) (query : String) (data : String) :
    Option String :=
  match dyJs with
  | none => none
  | some engine => engine query data

/-- The signing step of `DouyinSpider._get_video_info_via_api`: sort the
parameters, build the query string, try to sign, and attach `a_bogus`
only when signing succeeded.  The HTTP request is then sent
unconditionally with the returned parameter list. -/
def apiRequestParams (dyJs : Option SigEngine) (params : List (String × String)) :
    List (String × String) :=
  let query := spliceUrl (sortParams params)
  match generateABogus dyJs query "" with
  | some ab => params ++ [("a_bogus", ab)]
  | none => params

end DouyinSpider

/-! ## Record deduplication (crawl_with_selenium / search_videos_with_selenium) -/

/-- One scraped record: its platform-native unique ID (`Post_ID`) and the
remaining extracted fields. -/
structure Record where
  postId : String
  fields : List (String × String)
deriving Repr, DecidableEq

/-- One iteration of the dedup loop: a record is appended only when its
`Post_ID` is non-empty (truthy) and not already among the collected IDs.
`none` models an element whose parse failed or raised (the loop
`continue`s). -/
def dedupStep (acc : List Record) (parsed : Option Record) : List Record :=
  match parsed with
  | none => acc
  | some r =>
      if r.postId == "" then acc
      else if (acc.map Record.postId).contains r.postId then acc
      else acc ++ [r]

/-- The dedup loop over all parsed elements of one crawl run. -/
def collectRecords (parsed : List (Option Record)) : List Record :=
  parsed.foldl dedupStep []

namespace BilibiliSpider

/-! ## Retrying request executor (`BilibiliSpider._make_request`) -/

/-- The `status_forcelist` of the `Retry` strategy mounted on the
session. -/
def statusForcelist : List Nat := [429, 500, 502, 503, 504]

/-- Failures surfaced by one `session.get` / `_make_request`. -/
inductive ReqError where
  /-- `requests.exceptions.RetryError`: the mounted urllib3 adapter
  exhausted its own retries on forcelisted statuses. -/
  | retryError
  /-- `requests.exceptions.HTTPError` from `raise_for_status`. -/
  | httpError (status : Nat)
deriving Repr, DecidableEq

/-- One `session.get` through the mounted
`HTTPAdapter(max_retries=Retry(total=remaining, status_forcelist=statusForcelist))`:
`server i` is the HTTP status of the `i`-th attempt overall; a response
whose status is forcelisted is retried until `Retry` is exhausted, then
the adapter raises (urllib3 `raise_on_status` default).  Returns the
next overall attempt index and the outcome. -/
def adapterGet (server : Nat → Nat) : Nat → Nat → Nat × Except Unit Nat
  | remaining, next =>
    let st := server next
    if statusForcelist.contains st then
      match remaining with
      | 0 => (next + 1, Except.error ())
      | r + 1 => adapterGet server r (next + 1)
    else
      (next + 1, Except.ok st)

/-- The retry loop of `BilibiliSpider._make_request`: each iteration
performs one `session.get` (itself retried by the mounted adapter with
`Retry(total = m)`), raises for status, and catches any
`RequestException` — retrying while iterations remain, re-raising the
last error when they run out. -/
def makeRequestLoop (server : Nat → Nat) (m : Nat) : Nat → Nat → Nat × Except ReqError Nat
  | remaining, next =>
    match adapterGet server m next with
    | (next', Except.error _) =>
        match remaining with
        | 0 => (next', Except.error ReqError.retryError)
        | r + 1 => makeRequestLoop server m r next'
    | (next', Except.ok st) =>
        if 400 ≤ st && st ≤ 599 then
          match remaining with
          | 0 => (next', Except.error (ReqError.httpError st))
          | r + 1 => makeRequestLoop server m r next'
        else (next', Except.ok st)

/-- `BilibiliSpider._make_request`: `maxRetries` is the constructor's
`max_retries` (it configures both the mounted `Retry` adapter and, when
the `retries` argument is `None`, the loop count).  Returns the total
number of HTTP attempts performed and the outcome. -/
def makeRequest (maxRetries : Nat) (retriesArg : Option Nat) (server : Nat → Nat) :
    Nat × Except ReqError Nat :=
  makeRequestLoop server maxRetries (retriesArg.getD maxRetries) 0

end BilibiliSpider

namespace DouyinSpider

/-! ## Interaction-counter plausibility check (`_validate_interaction_data`) -/

/-- The five interaction counters of a record (Python integers, hence
`Int`). -/
structure Counters where
  like : Int
  comment : Int
  view : Int
  share : Int
  collect : Int
deriving Repr, DecidableEq

/-- `DouyinSpider._validate_interaction_data` (the `video_id` argument
is unused by the checks). -/
def validateInteractionData (c : Counters) : Bool :=
  let hasValidData := (0 < c.like) || (0 < c.comment) || (0 < c.view)
    || (0 < c.share) || (0 < c.collect)
  if !hasValidData then false
  else if 1000000000 < c.like then false
  else if 100000000 < c.comment then false
  else if 10000000000 < c.view then false
  else if 0 < c.view && 0 < c.like && c.view < c.like then false
  else if 0 < c.view && 0 < c.comment && c.view * 10 < c.comment then false
  else true

/-! ## Detail-page counter merge (`_parse_selenium_element`) -/

/-- `has_complete_data`: all of like/comment/view already non-zero. -/
def hasCompleteData (c : Counters) : Bool :=
  0 < c.like && 0 < c.comment && 0 < c.view

/-- The per-counter merge applied to validated detail-page data: each
counter for which the detail page produced a positive value is
overwritten with it; the others keep their prior value. -/
def mergeDetailCounters (prior detail : Counters) : Counters where
  like := if 0 < detail.like then detail.like else prior.like
  comment := if 0 < detail.comment then detail.comment else prior.comment
  view := if 0 < detail.view then detail.view else prior.view
  share := if 0 < detail.share then detail.share else prior.share
  collect := if 0 < detail.collect then detail.collect else prior.collect

/-- The detail-page fallback of `_parse_selenium_element` (the
no-cookie branch; the two API-failure branches are textually
identical): only runs when like/comment/view are not all non-zero, and
merges the detail data only when `_validate_interaction_data` accepts
it.  `none` models `_get_video_detail_from_page` returning nothing. -/
def enrichFromDetailPage (prior : Counters) (detail : Option Counters) : Counters :=
  if hasCompleteData prior then prior
  else
    match detail with
    | some d => if validateInteractionData d then mergeDetailCounters prior d else prior
    | none => prior

end DouyinSpider

/-! ## A matcher for the counter regexes

The free-text counter patterns of `_parse_selenium_element` are all
concatenations of literals, single-character classes (possibly with `?`
or `*`), and the capture group `(\d+\.?\d*)`.  `matchToks` implements
Python `re` semantics for exactly these constructs: greedy quantifiers
with backtracking, leftmost match wins (`re.search`). -/

/-- One regex token of the counter patterns. -/
inductive RTok where
  /-- a literal string -/
  | lit (s : String)
  /-- a single-character class `[...]` -/
  | cls (cs : List Char)
  /-- an optional class `[...]?` -/
  | clsOpt (cs : List Char)
  /-- a starred class `[...]*` (greedy) -/
  | clsStar (cs : List Char)
  /-- the capture group `(\d+\.?\d*)` -/
  | numGroup

/-- A pattern is a concatenation of tokens. -/
def RPattern : Type := List RTok

/-- The candidate matches of `\d+\.?\d*` at the head of `s`, as
`(consumed, rest)` pairs in backtracking preference order: the greedy
match first (all digits, the dot, all fractional digits), then ever
shorter fractional parts, then the dot-less match. -/
def numSplits (s : List Char) : List (List Char × List Char) :=
  let ds := s.takeWhile Char.isDigit
  if ds.isEmpty then []
  else
    let r1 := s.drop ds.length
    match r1 with
    | '.' :: r2 =>
        let fs := r2.takeWhile Char.isDigit
        ((List.range (fs.length + 1)).reverse.map
          (fun k => (ds ++ '.' :: fs.take k, r2.drop k))) ++ [(ds, r1)]
    | _ => [(ds, r1)]

/-- Greedy `[...]*` with backtracking: consume as many class characters
as possible, fall back to shorter runs when the continuation `k` (the
rest of the pattern) fails. -/
def starRun (cs : List Char) (k : List Char → Option (List Char × Option (List Char))) :
    List Char → Option (List Char × Option (List Char))
  | [] => k []
  | c :: s' =>
      if cs.contains c then
        match starRun cs k s' with
        | some r => some r
        | none => k (c :: s')
      else k (c :: s')

/-- Try the numeral candidates in preference order; on the first one
whose continuation `k` succeeds, record it as the captured group. -/
def tryNumRun (k : List Char → Option (List Char × Option (List Char))) :
    List (List Char × List Char) → Option (List Char × Option (List Char))
  | [] => none
  | (g, r) :: rest =>
      match k r with
      | some (r', _) => some (r', some g)
      | none => tryNumRun k rest

/-- Match a pattern at the head of `s`; returns the unconsumed suffix
and the captured group, trying alternatives in Python's backtracking
order. -/
def matchToks : List RTok → List Char → Option (List Char × Option (List Char))
  | [], s => some (s, none)
  | RTok.lit l :: ts, s =>
      if l.data.isPrefixOf s then matchToks ts (s.drop l.data.length) else none
  | RTok.cls cs :: ts, s =>
      match s with
      | [] => none
      | c :: s' => if cs.contains c then matchToks ts s' else none
  | RTok.clsOpt cs :: ts, s =>
      match s with
      | [] => matchToks ts []
      | c :: s' =>
          if cs.contains c then
            match matchToks ts s' with
            | some r => some r
            | none => matchToks ts (c :: s')
          else matchToks ts (c :: s')
  | RTok.clsStar cs :: ts, s => starRun cs (matchToks ts) s
  | RTok.numGroup :: ts, s => tryNumRun (matchToks ts) (numSplits s)

/-- `re.search`: try the pattern at every start position, leftmost
match wins.  Returns `(group(0), group(1))`. -/
def searchToks (toks : List RTok) : List Char → Option (String × String)
  | [] =>
      (matchToks toks []).map (fun pr => ("", String.mk (pr.2.getD [])))
  | c :: s' =>
      match matchToks toks (c :: s') with
      | some (rest, g) =>
          some (String.mk ((c :: s').take ((c :: s').length - rest.length)),
            String.mk (g.getD []))
      | none => searchToks toks s'

/-! ## `_parse_count` (both spiders) -/

/-- Numeric value of a digit string. -/
def digitsToNat (ds : List Char) : Nat :=
  ds.foldl (fun n c => 10 * n + (c.toNat - '0'.toNat)) 0

/-- Exact value of a decimal numeral as accepted by Python `float()`
on a `\d+\.?\d*` capture: a numerator and a power-of-ten denominator.
`none` models a `float()` that raises (malformed numeral). -/
def parseDecimal (s : String) : Option (Nat × Nat) :=
  let cs := s.data
  let ds := cs.takeWhile Char.isDigit
  if ds.isEmpty then none
  else
    match cs.drop ds.length with
    | [] => some (digitsToNat ds, 1)
    | '.' :: fs =>
        if fs.all Char.isDigit then
          some (digitsToNat (ds ++ fs), 10 ^ fs.length)
        else none
    | _ => none

/-! ### IEEE-754 binary64 arithmetic, as performed by CPython

`float(count_str)` converts the decimal numeral to the nearest binary64
double (correctly rounded, ties to even), `count * 10000` is a rounded
binary64 multiplication, and `int(...)` truncates — raising
`OverflowError` on an infinite value.  A non-negative double is
represented as a mantissa/exponent pair `m * 2^e` with `m < 2^53`
(`m ≥ 2^52` for normal values, `e = -1074` for subnormals), or `inf`. -/

/-- Round `a / b` to the nearest integer, ties to even (`b > 0`). -/
def divRoundNearestEven (a b : Nat) : Nat :=
  let q := a / b
  let r := a % b
  if 2 * r < b then q
  else if b < 2 * r then q + 1
  else if q % 2 = 0 then q else q + 1

/-- `⌊log2 n⌋` by structural recursion on a fuel bound. -/
def floorLog2Go : Nat → Nat → Nat
  | 0, _ => 0
  | fuel + 1, n => if n ≤ 1 then 0 else floorLog2Go fuel (n / 2) + 1

/-- `⌊log2 n⌋` (0 at 0). -/
def floorLog2 (n : Nat) : Nat := floorLog2Go n n

/-- Whether `num / den ≥ 2 ^ k`. -/
def ratGePow2 (num den : Nat) (k : Int) : Bool :=
  if 0 ≤ k then den * 2 ^ k.toNat ≤ num else den ≤ num * 2 ^ (-k).toNat

/-- `⌊log2 (num / den)⌋` for positive `num`, `den`. -/
def floorLog2Rat (num den : Nat) : Int :=
  let k0 : Int := (floorLog2 num : Int) - (floorLog2 den : Int)
  if ratGePow2 num den k0 then k0 else k0 - 1

/-- Round `num / (den * 2 ^ e)` to the nearest integer, ties to even. -/
def scaleRound (num den : Nat) (e : Int) : Nat :=
  if 0 ≤ e then divRoundNearestEven num (den * 2 ^ e.toNat)
  else divRoundNearestEven (num * 2 ^ (-e).toNat) den

/-- Whether `m * 2 ^ e ≥ 2 ^ 1024`, the binary64 overflow threshold
(`m < 2 ^ 53`, so a negative exponent can never overflow). -/
def floatOverflows (m : Nat) (e : Int) : Bool :=
  if 0 ≤ e then 2 ^ 1024 ≤ m * 2 ^ e.toNat else false

/-- A non-negative CPython float. -/
inductive PyFloat where
  /-- the finite double `mantissa * 2 ^ exp` -/
  | finite (mantissa : Nat) (exp : Int)
  /-- positive infinity -/
  | inf
deriving Repr, DecidableEq

/-- `float()` on the exact rational `num / den`: the nearest binary64
double, ties to even, overflowing to `inf` (as CPython's correctly
rounded decimal-to-double conversion does). -/
def floatOfRat (num den : Nat) : PyFloat :=
  if num = 0 then PyFloat.finite 0 0
  else
    let k := floorLog2Rat num den
    let e := max (k - 52) (-1074)
    let m := scaleRound num den e
    let m' := if m = 2 ^ 53 then 2 ^ 52 else m
    let e' := if m = 2 ^ 53 then e + 1 else e
    if floatOverflows m' e' then PyFloat.inf else PyFloat.finite m' e'

/-- Binary64 multiplication of a double by an exact natural number
(`count * 10000`): the exact product re-rounded to 53 bits, ties to
even, overflowing to `inf`. -/
def floatMulNat (x : PyFloat) (n : Nat) : PyFloat :=
  match x with
  | PyFloat.inf => PyFloat.inf
  | PyFloat.finite m e =>
      if m = 0 ∨ n = 0 then PyFloat.finite 0 0
      else
        let p := m * n
        let shift := floorLog2 p - 52
        let m1 := divRoundNearestEven p (2 ^ shift)
        let m2 := if m1 = 2 ^ 53 then 2 ^ 52 else m1
        let e2 := if m1 = 2 ^ 53 then e + shift + 1 else e + shift
        if floatOverflows m2 e2 then PyFloat.inf else PyFloat.finite m2 e2

/-- `int(x)` on a non-negative float: truncation toward zero; `none`
models the `OverflowError` raised on an infinite value. -/
def floatTruncNat : PyFloat → Option Nat
  | PyFloat.inf => none
  | PyFloat.finite m e => some (if 0 ≤ e then m * 2 ^ e.toNat else m / 2 ^ (-e).toNat)

/-- `int(float(g))` for the numeral `num / den`. -/
def pyIntFloat (num den : Nat) : Option Nat :=
  floatTruncNat (floatOfRat num den)

/-- `int(float(g) * 10000)` for the numeral `num / den`. -/
def pyIntFloatTimes10000 (num den : Nat) : Option Nat :=
  floatTruncNat (floatMulNat (floatOfRat num den) 10000)

/-- Result of the `int(...)` computation under the surrounding
`try`/`except`: the `OverflowError` raised on an infinite value is
caught and yields 0. -/
def intOfCount (o : Option Nat) : Int :=
  match o with
  | some n => (n : Int)
  | none => 0

namespace DouyinSpider

/-- `DouyinSpider._parse_count`, on a match object modelled as
`(group(0), group(1))` (`none` models a falsy match).  The `万`/`w`
check is over `group(0)` with `lower()`, hence also `W`; the numeric
value is `int(float(g) * 10000)` resp. `int(float(g))` in binary64
arithmetic, and every exception path (`float()` on a malformed numeral,
`int()` on an infinite value) returns 0 through the `except` clause. -/
def parseCount (m : Option (String × String)) : Int :=
  match m with
  | none => 0
  | some (full, g) =>
      match parseDecimal g with
      | none => 0
      | some (num, den) =>
          if full.data.contains '万' || full.data.contains 'w'
              || full.data.contains 'W' then
            intOfCount (pyIntFloatTimes10000 num den)
          else
            intOfCount (pyIntFloat num den)

end DouyinSpider

namespace BilibiliSpider

/-- `BilibiliSpider._parse_count`: as the Douyin variant but the
10000-multiplier applies only when `group(0)` contains `万` (no `w`
check). -/
def parseCount (m : Option (String × String)) : Int :=
  match m with
  | none => 0
  | some (full, g) =>
      match parseDecimal g with
      | none => 0
      | some (num, den) =>
          if full.data.contains '万' then
            intOfCount (pyIntFloatTimes10000 num den)
          else
            intOfCount (pyIntFloat num den)

end BilibiliSpider

namespace DouyinSpider

/-! ## Free-text counter extraction (`_parse_selenium_element`, method 1) -/

/-- Python `\s` (the ASCII whitespace plus the common Unicode spaces
relevant here). -/
def wsChars : List Char := [' ', '\t', '\n', '\r', '\x0b', '\x0c', ' ', '　']

/-- The class `[万w]` under `re.IGNORECASE`. -/
def unitCls : List Char := ['万', 'w', 'W']

/-- The full-width/half-width colon class `[：:]`. -/
def colonCls : List Char := ['：', ':']

/-- `like_patterns`. -/
def likePatterns : List (List RTok) :=
  [[RTok.numGroup, RTok.clsOpt unitCls, RTok.lit "赞"],
   [RTok.numGroup, RTok.clsOpt unitCls, RTok.lit "点赞"],
   [RTok.lit "点赞", RTok.cls colonCls, RTok.clsStar wsChars, RTok.numGroup,
     RTok.clsOpt unitCls],
   [RTok.numGroup, RTok.clsOpt unitCls, RTok.clsStar wsChars, RTok.lit "赞"],
   [RTok.lit "❤", RTok.clsStar wsChars, RTok.numGroup, RTok.clsOpt unitCls],
   [RTok.numGroup, RTok.clsOpt unitCls, RTok.clsStar wsChars, RTok.lit "❤"],
   [RTok.lit "👍", RTok.clsStar wsChars, RTok.numGroup, RTok.clsOpt unitCls],
   [RTok.numGroup, RTok.clsOpt unitCls, RTok.clsStar wsChars, RTok.lit "👍"],
   [RTok.numGroup, RTok.clsStar wsChars, RTok.lit "万", RTok.clsStar wsChars,
     RTok.lit "赞"],
   [RTok.numGroup, RTok.clsStar wsChars, RTok.lit "万"]]

/-- `comment_patterns`. -/
def commentPatterns : List (List RTok) :=
  [[RTok.numGroup, RTok.clsOpt unitCls, RTok.lit "评论"],
   [RTok.numGroup, RTok.clsOpt unitCls, RTok.lit "条评论"],
   [RTok.lit "评论", RTok.cls colonCls, RTok.clsStar wsChars, RTok.numGroup,
     RTok.clsOpt unitCls],
   [RTok.numGroup, RTok.clsOpt unitCls, RTok.clsStar wsChars, RTok.lit "评论"],
   [RTok.lit "💬", RTok.clsStar wsChars, RTok.numGroup, RTok.clsOpt unitCls],
   [RTok.numGroup, RTok.clsOpt unitCls, RTok.clsStar wsChars, RTok.lit "💬"],
   [RTok.numGroup, RTok.clsStar wsChars, RTok.lit "万", RTok.clsStar wsChars,
     RTok.lit "评论"]]

/-- `view_patterns`. -/
def viewPatterns : List (List RTok) :=
  [[RTok.numGroup, RTok.clsOpt unitCls, RTok.lit "播放"],
   [RTok.numGroup, RTok.clsOpt unitCls, RTok.lit "次播放"],
   [RTok.lit "播放", RTok.cls colonCls, RTok.clsStar wsChars, RTok.numGroup,
     RTok.clsOpt unitCls],
   [RTok.numGroup, RTok.clsOpt unitCls, RTok.clsStar wsChars, RTok.lit "播放"],
   [RTok.lit "👁", RTok.clsStar wsChars, RTok.numGroup, RTok.clsOpt unitCls],
   [RTok.numGroup, RTok.clsOpt unitCls, RTok.clsStar wsChars, RTok.lit "👁"],
   [RTok.numGroup, RTok.clsStar wsChars, RTok.lit "万", RTok.clsStar wsChars,
     RTok.lit "播放"]]

/-- One `for pattern in ...: if re.search(...): count = _parse_count(...); break`
loop: the first pattern with a match wins; with no match the counter
keeps its prior value. -/
def firstPatternCount (pats : List (List RTok)) (text : List Char) (prior : Int) : Int :=
  match pats with
  | [] => prior
  | p :: ps =>
      match searchToks p text with
      | some m => parseCount (some m)
      | none => firstPatternCount ps text prior

/-- The free-text strategy for like/comment/view over the element's
rendered text. -/
def freeTextCounts (text : String) (priorLike priorComment priorView : Int) :
    Int × Int × Int :=
  (firstPatternCount likePatterns text.data priorLike,
   firstPatternCount commentPatterns text.data priorComment,
   firstPatternCount viewPatterns text.data priorView)

/-! ## Login wait phase (`crawl_with_selenium`) -/

/-- Outcome of the login-wait phase. -/
inductive LoginOutcome where
  | verified
  | degradedContinue
  | aborted
deriving Repr, DecidableEq

/-- `for i in range(120, 0, -10)`. -/
def countdownList : List Nat := (List.range 12).map (fun i => 120 - 10 * i)

/-- The fixed countdown: one `sleep(10)` per loop iteration. -/
def loginCountdownSleep : Nat := (countdownList.map (fun _ => 10)).sum

/-- The verification loop `for retry in range(max_retries)` with
`max_retries = 5`, given the remaining round indices: each round sleeps
3 s and re-checks; on failure every round but the last sleeps 5 s,
refreshes and sleeps 5 s more.  `check r` tells whether round `r` sees
enough content and no login modal.  Returns total sleep seconds and
success. -/
def verifyGo (check : Nat → Bool) : List Nat → Nat × Bool
  | [] => (0, false)
  | r :: rest =>
      if check r then (3, true)
      else
        match rest with
        | [] => (3, false)
        | _ :: _ =>
            let pr := verifyGo check rest
            (3 + 10 + pr.1, pr.2)

/-- The whole login-wait phase: fixed countdown, refresh and 5 s wait,
five verification rounds, then — when verification failed — the
`input()` prompt decides between continuing degraded and aborting.
Returns total sleep seconds and the outcome. -/
def loginWaitPhase (check : Nat → Bool) (userContinues : Bool) : Nat × LoginOutcome :=
  let pr := verifyGo check (List.range 5)
  (loginCountdownSleep + 5 + pr.1,
   if pr.2 then LoginOutcome.verified
   else if userContinues then LoginOutcome.degradedContinue
   else LoginOutcome.aborted)

end DouyinSpider

/-! # Theorems -/

namespace DouyinSpider

lemma orderPass_foldl_eq (params : List (String × String)) :
    ∀ (order : List String) (acc : List (String × String)), order.Nodup →
      (∀ k ∈ order, acc.any (fun q => q.1 == k) = false) →
      order.foldl (fun acc k =>
          match params.find? (fun p => p.1 == k) with
          | some p => if acc.any (fun q => q.1 == k) then acc else acc ++ [(k, p.2)]
          | none => acc) acc
        = acc ++ order.filterMap (fun k =>
            (params.find? (fun p => p.1 == k)).map (fun p => (k, p.2)))
  | [], acc, _, _ => by simp
  | k :: order, acc, hnd, hacc => by
      simp only [List.foldl_cons, List.filterMap_cons]
      cases hfind : params.find? (fun p => p.1 == k) with
      | none =>
          dsimp only
          rw [orderPass_foldl_eq params order acc (List.nodup_cons.mp hnd).2
            (fun k' hk' => hacc k' (List.mem_cons_of_mem _ hk'))]
          simp
      | some p =>
          dsimp only
          rw [if_neg (by simp [hacc k (List.mem_cons_self _ _)])]
          have hacc' : ∀ k' ∈ order, ((acc ++ [(k, p.2)]).any (fun q => q.1 == k')) = false := by
            intro k' hk'
            have h1 := hacc k' (List.mem_cons_of_mem _ hk')
            have h2 : k ≠ k' := fun h => (List.nodup_cons.mp hnd).1 (h ▸ hk')
            simp [List.any_append, h1, h2]
          rw [orderPass_foldl_eq params order (acc ++ [(k, p.2)]) (List.nodup_cons.mp hnd).2 hacc']
          simp

lemma orderPass_eq (params : List (String × String)) (order : List String)
    (hnd : order.Nodup) :
    orderPass params order
      = order.filterMap (fun k =>
          (params.find? (fun p => p.1 == k)).map (fun p => (k, p.2))) := by
  have := orderPass_foldl_eq params order [] hnd (by simp)
  simpa [orderPass] using this

lemma appendPass_eq :
    ∀ (params : List (String × String)) (acc : List (String × String)),
      (params.map Prod.fst).Nodup →
      appendPass params acc
        = acc ++ params.filter (fun p => !(acc.any (fun q => q.1 == p.1)))
  | [], acc, _ => by simp [appendPass]
  | p :: rest, acc, hnd => by
      have hnd' : (rest.map Prod.fst).Nodup := (List.nodup_cons.mp (by simpa using hnd)).2
      have hp : p.1 ∉ rest.map Prod.fst := (List.nodup_cons.mp (by simpa using hnd)).1
      simp only [appendPass, List.foldl_cons]
      cases hc : acc.any (fun q => q.1 == p.1) with
      | true =>
          rw [if_pos (by simp [hc])]
          have := appendPass_eq rest acc hnd'
          simp only [appendPass] at this
          rw [this]
          simp [List.filter_cons, hc]
      | false =>
          rw [if_neg (by simp [hc])]
          have := appendPass_eq rest (acc ++ [p]) hnd'
          simp only [appendPass] at this
          rw [this]
          have hfc : rest.filter (fun q => !((acc ++ [p]).any (fun r => r.1 == q.1)))
              = rest.filter (fun q => !(acc.any (fun r => r.1 == q.1))) := by
            apply List.filter_congr
            intro q hq
            have : (p.1 == q.1) = false := by
              have hqp : q.1 ≠ p.1 := by
                intro h
                exact hp (h ▸ List.mem_map_of_mem Prod.fst hq)
              exact beq_eq_false_iff_ne.mpr (Ne.symm hqp)
            simp [List.any_append, this]
          rw [hfc]
          simp [List.filter_cons, hc]

lemma sortParamsWith_eq (order : List String) (params : List (String × String))
    (hord : order.Nodup) (hpar : (params.map Prod.fst).Nodup) :
    sortParamsWith order params
      = order.filterMap (fun k => (params.find? (fun p => p.1 == k)).map (fun p => (k, p.2)))
        ++ params.filter (fun p => !(order.contains p.1)) := by
  rw [sortParamsWith, appendPass_eq params _ hpar, orderPass_eq params order hord]
  congr 1
  apply List.filter_congr
  intro p hp
  have hmem : ((order.filterMap (fun k =>
      (params.find? (fun q => q.1 == k)).map (fun q => (k, q.2)))).any
        (fun q => q.1 == p.1)) = order.contains p.1 := by
    by_cases h : p.1 ∈ order
    · have hfind : ∃ p', params.find? (fun q => q.1 == p.1) = some p' := by
        have : (params.find? (fun q => q.1 == p.1)).isSome := by
          rw [List.find?_isSome]
          exact ⟨p, hp, by simp⟩
        exact Option.isSome_iff_exists.mp this
      obtain ⟨p', hp'⟩ := hfind
      have : ((p.1 : String), p'.2) ∈ order.filterMap (fun k =>
          (params.find? (fun q => q.1 == k)).map (fun q => (k, q.2))) := by
        rw [List.mem_filterMap]
        exact ⟨p.1, h, by rw [hp']; rfl⟩
      have h2 : order.contains p.1 = true := by
        simpa [List.contains] using h
      rw [h2]
      rw [List.any_eq_true]
      exact ⟨(p.1, p'.2), this, by simp⟩
    · have h2 : order.contains p.1 = false := by
        simpa [List.contains] using h
      rw [h2]
      rw [List.any_eq_false]
      intro q hq
      rw [List.mem_filterMap] at hq
      obtain ⟨k, hk, hkq⟩ := hq
      cases hfind : params.find? (fun r => r.1 == k) with
      | none => rw [hfind] at hkq; simp at hkq
      | some r =>
          rw [hfind] at hkq
          have hq1 : q = (k, r.2) := by simpa using hkq.symm
          rw [hq1]
          simp only [beq_iff_eq]
          intro hkp
          exact h (hkp ▸ hk)
  rw [hmem]

end DouyinSpider
namespace DouyinSpider

lemma foldl_splice_eq :
    ∀ (params : List (String × String)) (s : String),
      params.foldl (fun acc p => acc ++ p.1 ++ "=" ++ pyQuote p.2 ++ "&") s
        = s ++ ampTrail (params.map pairStr)
  | [], s => by simp [ampTrail, String.append_empty]
  | p :: rest, s => by
      simp only [List.foldl_cons, List.map_cons, ampTrail]
      rw [foldl_splice_eq rest]
      simp [pairStr, String.append_assoc]

lemma ampTrail_data_cons (x : String) (xs : List String) :
    (ampTrail (x :: xs)).data = x.data ++ '&' :: (ampTrail xs).data := by
  show (x ++ "&" ++ ampTrail xs).data = _
  simp [String.data_append]

lemma dropLastChar_ampTrail : ∀ (l : List String), dropLastChar (ampTrail l) = ampJoin l
  | [] => by
      apply String.ext
      simp [ampTrail, ampJoin, dropLastChar]
  | [x] => by
      apply String.ext
      show ((x ++ "&" ++ ampTrail []).data).dropLast = _
      simp [ampTrail, ampJoin, dropLastChar, String.data_append]
  | x :: y :: xs => by
      apply String.ext
      have ih := congrArg String.data (dropLastChar_ampTrail (y :: xs))
      have hne : (ampTrail (y :: xs)).data ≠ [] := by
        rw [ampTrail_data_cons]
        simp
      show ((ampTrail (x :: y :: xs)).data).dropLast = (x ++ "&" ++ ampJoin (y :: xs)).data
      rw [ampTrail_data_cons, String.data_append, String.data_append]
      rw [show x.data ++ '&' :: (ampTrail (y :: xs)).data
        = (x.data ++ ['&']) ++ (ampTrail (y :: xs)).data by simp]
      rw [List.dropLast_append_of_ne_nil _ hne]
      simp only [dropLastChar] at ih
      simp [ih.symm]

lemma spliceUrl_eq_ampJoin (params : List (String × String)) :
    spliceUrl params = ampJoin (params.map pairStr) := by
  rw [spliceUrl, foldl_splice_eq params "", String.empty_append, dropLastChar_ampTrail]

end DouyinSpider

/-- C1: for every parameter mapping (keys distinct, as in a Python
`dict`) and every duplicate-free order table — in particular the fixed
platform table `paramOrderTable` used by `_sort_params` — the canonical
query built by `_sort_params` followed by `_splice_url` lists the table
keys present in the mapping first, in exactly table order, followed by
the unlisted keys in their original relative insertion order, each
serialized as a URL-encoded `key=value` pair joined by `&`; in
particular, for input `{"keyword": "x", "aid": "6383", "offset": "0"}`
and order table `[device_platform, aid, offset, keyword]` the result is
`"aid=6383&offset=0&keyword=x"`. -/
theorem douyin_canonical_query_stable_partition :
    (∀ (order : List String) (params : List (String × String)),
        order.Nodup → (params.map Prod.fst).Nodup →
        DouyinSpider.sortParamsWith order params
            = order.filterMap (fun k =>
                (params.find? (fun p => p.1 == k)).map (fun p => (k, p.2)))
              ++ params.filter (fun p => !(order.contains p.1))
          ∧ DouyinSpider.spliceUrl (DouyinSpider.sortParamsWith order params)
            = DouyinSpider.ampJoin
                ((order.filterMap (fun k =>
                    (params.find? (fun p => p.1 == k)).map (fun p => (k, p.2)))
                  ++ params.filter (fun p => !(order.contains p.1))).map
                  DouyinSpider.pairStr))
    ∧ DouyinSpider.paramOrderTable.Nodup
    ∧ DouyinSpider.spliceUrl (DouyinSpider.sortParamsWith
        ["device_platform", "aid", "offset", "keyword"]
        [("keyword", "x"), ("aid", "6383"), ("offset", "0")])
      = "aid=6383&offset=0&keyword=x" := by
  refine ⟨fun order params hord hpar => ?_, by decide, by decide⟩
  have h := DouyinSpider.sortParamsWith_eq order params hord hpar
  exact ⟨h, by rw [DouyinSpider.spliceUrl_eq_ampJoin, h]⟩

/-- Witness for C1 at the scenario input: the four-key order table and
the three-parameter mapping are duplicate-free, and `_sort_params`
produces the stable partition. -/
theorem douyin_canonical_query_stable_partition_witness :
    DouyinSpider.sortParamsWith ["device_platform", "aid", "offset", "keyword"]
        [("keyword", "x"), ("aid", "6383"), ("offset", "0")]
      = [("aid", "6383"), ("offset", "0"), ("keyword", "x")] := by
  have h := (douyin_canonical_query_stable_partition.1
    ["device_platform", "aid", "offset", "keyword"]
    [("keyword", "x"), ("aid", "6383"), ("offset", "0")] (by decide) (by decide)).1
  rw [h]
  rfl

lemma collect_go_ne_empty :
    ∀ (l : List (Option Record)) (acc : List Record),
      (∀ r ∈ acc, r.postId ≠ "") → ∀ r ∈ l.foldl dedupStep acc, r.postId ≠ ""
  | [], acc, h => by simpa using h
  | none :: rest, acc, h => by
      simpa [dedupStep] using collect_go_ne_empty rest acc h
  | some r :: rest, acc, h => by
      simp only [List.foldl_cons, dedupStep]
      split_ifs with h1 h2
      · exact collect_go_ne_empty rest acc h
      · exact collect_go_ne_empty rest acc h
      · refine collect_go_ne_empty rest (acc ++ [r]) ?_
        intro x hx
        rcases List.mem_append.mp hx with hx | hx
        · exact h x hx
        · rcases List.mem_singleton.mp hx with rfl
          simpa using h1

lemma collect_go_nodup :
    ∀ (l : List (Option Record)) (acc : List Record),
      (acc.map Record.postId).Nodup → ((l.foldl dedupStep acc).map Record.postId).Nodup
  | [], acc, h => by simpa using h
  | none :: rest, acc, h => by
      simpa [dedupStep] using collect_go_nodup rest acc h
  | some r :: rest, acc, h => by
      simp only [List.foldl_cons, dedupStep]
      split_ifs with h1 h2
      · exact collect_go_nodup rest acc h
      · exact collect_go_nodup rest acc h
      · refine collect_go_nodup rest (acc ++ [r]) ?_
        rw [List.map_append, List.nodup_append]
        refine ⟨h, by simp, ?_⟩
        intro x hx hxm
        simp only [List.map_cons, List.map_nil, List.mem_singleton] at hxm
        rw [hxm] at hx
        exact h2 (List.elem_iff.mpr hx)

lemma filterMap_id_cons_some (r : Record) (l : List (Option Record)) :
    (some r :: l).filterMap (fun o => o) = r :: l.filterMap (fun o => o) := rfl

lemma filterMap_id_cons_none (l : List (Option Record)) :
    (none :: l).filterMap (fun o => o) = l.filterMap (fun o => o) := rfl

lemma contains_true_iff (l : List String) (a : String) : l.contains a = true ↔ a ∈ l :=
  List.elem_iff

lemma contains_false_iff (l : List String) (a : String) : l.contains a = false ↔ a ∉ l := by
  rw [← Bool.not_eq_true]
  exact not_congr (contains_true_iff l a)

lemma filter_eq_nil_of_not_contains (acc : List Record) (s : String)
    (hc : (acc.map Record.postId).contains s = false) :
    acc.filter (fun r => r.postId == s) = [] := by
  rw [List.filter_eq_nil_iff]
  intro x hx hxs
  exact (contains_false_iff _ _).mp hc
    (List.mem_map.mpr ⟨x, hx, by simpa using hxs⟩)

lemma collect_go_filter_dup :
    ∀ (l : List (Option Record)) (acc : List Record) (s : String),
      (acc.map Record.postId).contains s = true →
      (l.foldl dedupStep acc).filter (fun r => r.postId == s)
        = acc.filter (fun r => r.postId == s)
  | [], acc, s, _ => by simp
  | none :: rest, acc, s, h => by
      simpa [dedupStep] using collect_go_filter_dup rest acc s h
  | some r :: rest, acc, s, h => by
      simp only [List.foldl_cons, dedupStep]
      by_cases h1 : ((r.postId == "") = true)
      · rw [if_pos h1]
        exact collect_go_filter_dup rest acc s h
      · rw [if_neg h1]
        by_cases h2 : (((acc.map Record.postId).contains r.postId) = true)
        · rw [if_pos h2]
          exact collect_go_filter_dup rest acc s h
        · rw [if_neg h2]
          have hrs : (r.postId == s) = false :=
            beq_eq_false_iff_ne.mpr (fun heq => h2 (heq ▸ h))
          have hcon : (((acc ++ [r]).map Record.postId).contains s) = true := by
            rw [contains_true_iff]
            simp only [List.map_append, List.mem_append]
            exact Or.inl ((contains_true_iff _ _).mp h)
          rw [collect_go_filter_dup rest (acc ++ [r]) s hcon]
          simp [List.filter_append, hrs]

lemma collect_go_filter_fresh :
    ∀ (l : List (Option Record)) (acc : List Record) (s : String), s ≠ "" →
      (acc.map Record.postId).contains s = false →
      (l.foldl dedupStep acc).filter (fun r => r.postId == s)
        = ((l.filterMap (fun o => o)).find? (fun r => r.postId == s)).toList
  | [], acc, s, hs, hc => by
      simpa using filter_eq_nil_of_not_contains acc s hc
  | none :: rest, acc, s, hs, hc => by
      rw [filterMap_id_cons_none]
      simpa [dedupStep] using collect_go_filter_fresh rest acc s hs hc
  | some r :: rest, acc, s, hs, hc => by
      simp only [List.foldl_cons, dedupStep, filterMap_id_cons_some]
      by_cases h1 : ((r.postId == "") = true)
      · have hrs : (r.postId == s) = false := by
          have hre : r.postId = "" := by simpa using h1
          simp [hre, Ne.symm hs]
        rw [if_pos h1,
          List.find?_cons_of_neg (p := fun x : Record => x.postId == s) _ (by simp [hrs])]
        exact collect_go_filter_fresh rest acc s hs hc
      · rw [if_neg h1]
        by_cases h2 : (((acc.map Record.postId).contains r.postId) = true)
        · have hrs : (r.postId == s) = false :=
            beq_eq_false_iff_ne.mpr
              (fun heq => Bool.false_ne_true (hc.symm.trans (heq ▸ h2)))
          rw [if_pos h2,
            List.find?_cons_of_neg (p := fun x : Record => x.postId == s) _ (by simp [hrs])]
          exact collect_go_filter_fresh rest acc s hs hc
        · rw [if_neg h2]
          by_cases hsr : (r.postId == s) = true
          · have heq : r.postId = s := by simpa using hsr
            have hcon : (((acc ++ [r]).map Record.postId).contains s) = true := by
              rw [contains_true_iff]
              simp only [List.map_append, List.mem_append]
              exact Or.inr (by simp [heq])
            rw [collect_go_filter_dup rest (acc ++ [r]) s hcon,
              List.find?_cons_of_pos (p := fun x : Record => x.postId == s) _ hsr]
            have hacc := filter_eq_nil_of_not_contains acc s hc
            simp [List.filter_append, hacc, hsr]
          · have hrs : (r.postId == s) = false := by
              rw [← Bool.not_eq_true]
              exact hsr
            have hcon : (((acc ++ [r]).map Record.postId).contains s) = false := by
              rw [contains_false_iff]
              simp only [List.map_append, List.mem_append]
              rintro (hmem | hmem)
              · exact (contains_false_iff _ _).mp hc hmem
              · simp only [List.map_cons, List.map_nil, List.mem_singleton] at hmem
                rw [hmem] at hrs
                simp at hrs
            rw [List.find?_cons_of_neg (p := fun x : Record => x.postId == s) _ (by simp [hrs])]
            exact collect_go_filter_fresh rest (acc ++ [r]) s hs hcon

/-- C3: every record in the list returned by one crawl run (the dedup
loop of `crawl_with_selenium` / `search_videos_with_selenium` over the
per-element parse results) has a non-empty `Post_ID`, no two records
share a `Post_ID`, and for every non-empty ID the retained record is
exactly the first successfully parsed element carrying that ID. -/
theorem crawl_dedup_first_wins (parsed : List (Option Record)) :
    (∀ r ∈ collectRecords parsed, r.postId ≠ "")
    ∧ ((collectRecords parsed).map Record.postId).Nodup
    ∧ (∀ s : String, s ≠ "" →
        (collectRecords parsed).filter (fun r => r.postId == s)
          = ((parsed.filterMap (fun o => o)).find? (fun r => r.postId == s)).toList) := by
  refine ⟨collect_go_ne_empty parsed [] (by simp), collect_go_nodup parsed [] (by simp),
    fun s hs => ?_⟩
  simpa using collect_go_filter_fresh parsed [] s hs (by simp)

/-- Witness for C3: two elements with the same ID `"v1"`; the collected
list keeps exactly the record built from the first one. -/
theorem crawl_dedup_first_wins_witness :
    (collectRecords
        [some ⟨"v1", [("title", "a")]⟩, some ⟨"v1", [("title", "b")]⟩,
          some ⟨"v2", [("title", "c")]⟩]).filter (fun r => r.postId == "v1")
      = [⟨"v1", [("title", "a")]⟩] := by
  rw [(crawl_dedup_first_wins
    [some ⟨"v1", [("title", "a")]⟩, some ⟨"v1", [("title", "b")]⟩,
      some ⟨"v2", [("title", "c")]⟩]).2.2 "v1" (by decide)]
  rfl

namespace BilibiliSpider

lemma adapterGet_forcelisted (server : Nat → Nat)
    (hall : ∀ i, statusForcelist.contains (server i) = true) :
    ∀ (r next : Nat), adapterGet server r next = (next + r + 1, Except.error ())
  | 0, next => by
      rw [adapterGet]
      rw [if_pos (hall next)]
  | r + 1, next => by
      rw [adapterGet]
      rw [if_pos (hall next), adapterGet_forcelisted server hall r (next + 1)]
      congr 1
      omega

lemma makeRequestLoop_forcelisted (server : Nat → Nat) (m : Nat)
    (hall : ∀ i, statusForcelist.contains (server i) = true) :
    ∀ (rem next : Nat),
      makeRequestLoop server m rem next
        = (next + (rem + 1) * (m + 1), Except.error ReqError.retryError)
  | 0, next => by
      rw [makeRequestLoop, adapterGet_forcelisted server hall m next]
      dsimp only
      congr 1
      ring
  | rem + 1, next => by
      rw [makeRequestLoop, adapterGet_forcelisted server hall m next]
      dsimp only
      rw [makeRequestLoop_forcelisted server m hall rem (next + m + 1)]
      congr 1
      ring

end BilibiliSpider

/-- C2 counterexample: with `max_retries = 1` and a server that answers
503 on every attempt, `_make_request` performs 4 HTTP attempts (the
outer loop runs twice and each `session.get` is retried once more by
the mounted adapter), not the claimed `1 + 1 = 2`. -/
theorem bilibili_retry_bound_counterexample :
    (BilibiliSpider.makeRequest 1 none (fun _ => 503)).1 = 4
    ∧ (BilibiliSpider.makeRequest 1 none (fun _ => 503)).1 ≠ 1 + 1 := by
  decide

/-- C2 amended: with retry count `n` and a server that fails every
attempt with HTTP 503, `_make_request` performs exactly
`(n + 1) * (n + 1)` HTTP attempts — the outer loop makes `n + 1`
`session.get` calls and the `Retry` adapter mounted in `__init__` turns
each one into `n + 1` attempts — and then raises the last underlying
error (the adapter's retry-exhaustion error). -/
theorem bilibili_retry_bound_amended (n : Nat) :
    BilibiliSpider.makeRequest n none (fun _ => 503)
      = ((n + 1) * (n + 1), Except.error BilibiliSpider.ReqError.retryError) := by
  have h503 : ∀ i : Nat,
      BilibiliSpider.statusForcelist.contains ((fun _ => 503) i) = true := fun _ => rfl
  rw [BilibiliSpider.makeRequest, Option.getD_none,
    BilibiliSpider.makeRequestLoop_forcelisted _ n h503 n 0]
  congr 1
  omega

namespace BilibiliSpider

lemma contains_nat_true_iff (l : List Nat) (a : Nat) : l.contains a = true ↔ a ∈ l :=
  List.elem_iff

lemma notForcelisted_of_4xx (st : Nat) (h4 : 400 ≤ st) (h4b : st ≤ 499) (h429 : st ≠ 429) :
    statusForcelist.contains st = false := by
  rw [← Bool.not_eq_true]
  intro hmem
  have := (contains_nat_true_iff _ _).mp hmem
  simp only [statusForcelist, List.mem_cons, List.not_mem_nil, or_false] at this
  omega

lemma adapterGet_plain (server : Nat → Nat)
    (hserved : ∀ i, statusForcelist.contains (server i) = false) (r next : Nat) :
    adapterGet server r next = (next + 1, Except.ok (server next)) := by
  rw [adapterGet.eq_def]
  dsimp only
  rw [if_neg (fun h => Bool.false_ne_true ((hserved next) ▸ h))]

lemma makeRequestLoop_const4xx (st m : Nat)
    (hnot : statusForcelist.contains st = false) (hlo : 400 ≤ st) (hhi : st ≤ 599) :
    ∀ (rem next : Nat),
      makeRequestLoop (fun _ => st) m rem next
        = (next + rem + 1, Except.error (ReqError.httpError st))
  | 0, next => by
      rw [makeRequestLoop]
      rw [adapterGet_plain _ (fun _ => hnot) m next]
      dsimp only
      rw [if_pos (by simp [hlo, hhi])]
  | rem + 1, next => by
      rw [makeRequestLoop]
      rw [adapterGet_plain _ (fun _ => hnot) m next]
      dsimp only
      rw [if_pos (by simp [hlo, hhi])]
      rw [makeRequestLoop_const4xx st m hnot hlo hhi rem (next + 1)]
      congr 1
      omega

end BilibiliSpider

/-- C5 counterexample: a server that always answers 404 (a 4xx other
than 429).  With `max_retries = 3`, `_make_request` performs 4 HTTP
attempts — the `HTTPError` raised by `raise_for_status` is caught by the
generic `RequestException` handler and retried with backoff — rather
than propagating the failure after a single attempt. -/
theorem bilibili_4xx_counterexample :
    BilibiliSpider.makeRequest 3 none (fun _ => 404)
      = (4, Except.error (BilibiliSpider.ReqError.httpError 404))
    ∧ (BilibiliSpider.makeRequest 3 none (fun _ => 404)).1 ≠ 1 :=
  ⟨rfl, by decide⟩

/-- C5 amended: a 4xx status other than 429 is not forcelisted, so each
`session.get` performs a single attempt, but the resulting `HTTPError`
is retried by `_make_request` like any other failure: with retry count
`n` the call performs exactly `n + 1` attempts (each followed by a
backoff wait except the last) and only then raises the `HTTPError`. -/
theorem bilibili_4xx_retried_amended (n st : Nat) (h4 : 400 ≤ st) (h4b : st ≤ 499)
    (h429 : st ≠ 429) :
    BilibiliSpider.makeRequest n none (fun _ => st)
      = (n + 1, Except.error (BilibiliSpider.ReqError.httpError st)) := by
  have hnot := BilibiliSpider.notForcelisted_of_4xx st h4 h4b h429
  rw [BilibiliSpider.makeRequest, Option.getD_none,
    BilibiliSpider.makeRequestLoop_const4xx st n hnot h4 (by omega) n 0]
  congr 1
  omega

/-- Witness for the amended C5 at `n = 3`, `st = 404`. -/
theorem bilibili_4xx_retried_amended_witness :
    BilibiliSpider.makeRequest 3 none (fun _ => 404)
      = (3 + 1, Except.error (BilibiliSpider.ReqError.httpError 404)) :=
  bilibili_4xx_retried_amended 3 404 (by decide) (by decide) (by decide)

/-- C4: when the signature bundle failed to load at construction
(`dy_js` is `None`), `_generate_a_bogus` returns `None` on every call
without raising, and `_get_video_info_via_api` still sends the request,
just with the parameters unchanged (no `a_bogus` attached). -/
theorem signature_engine_soft_failure :
    (∀ (query data : String), DouyinSpider.generateABogus none query data = none)
    ∧ (∀ params : List (String × String),
        DouyinSpider.apiRequestParams none params = params) :=
  ⟨fun _ _ => rfl, fun _ => rfl⟩

/-- C6 counterexample: `_validate_interaction_data` accepts the counter
set `(like, comment, view, share, collect) = (-1, 1, 0, 0, 0)` although
its like counter is negative — the check never verifies
non-negativity. -/
theorem validate_accepts_negative_counterexample :
    DouyinSpider.validateInteractionData ⟨-1, 1, 0, 0, 0⟩ = true
    ∧ (DouyinSpider.Counters.mk (-1) 1 0 0 0).like < 0 := by
  decide

/-- C6 amended: `_validate_interaction_data` accepts a counter set iff
at least one counter is positive, like ≤ 10^9, comment ≤ 10^8,
view ≤ 10^10, view ≥ like when both are positive, and
comment ≤ 10 × view when both are positive.  (Non-negativity is not
checked.) -/
theorem validate_characterization (c : DouyinSpider.Counters) :
    DouyinSpider.validateInteractionData c = true ↔
      ((0 < c.like ∨ 0 < c.comment ∨ 0 < c.view ∨ 0 < c.share ∨ 0 < c.collect)
        ∧ c.like ≤ 1000000000
        ∧ c.comment ≤ 100000000
        ∧ c.view ≤ 10000000000
        ∧ (0 < c.view → 0 < c.like → c.like ≤ c.view)
        ∧ (0 < c.view → 0 < c.comment → c.comment ≤ c.view * 10)) := by
  unfold DouyinSpider.validateInteractionData
  split_ifs with h1 h2 h3 h4 h5 <;> simp_all <;> omega

/-- C7 counterexample: with prior counters `(100, 0, 0, 0, 0)` (a
non-zero like from list-view extraction) and validated detail data
`(50, 3, 200, 0, 0)`, the merge overwrites the non-zero like counter
with 50 — not only the previously-zero counters. -/
theorem enrich_overwrite_counterexample :
    (DouyinSpider.enrichFromDetailPage ⟨100, 0, 0, 0, 0⟩ (some ⟨50, 3, 200, 0, 0⟩)).like = 50
    ∧ (DouyinSpider.Counters.mk 100 0 0 0 0).like ≠ 0
    ∧ (DouyinSpider.enrichFromDetailPage ⟨100, 0, 0, 0, 0⟩
          (some ⟨50, 3, 200, 0, 0⟩)).like
        ≠ (DouyinSpider.Counters.mk 100 0 0 0 0).like := by
  decide

/-- C7 amended: the detail-page enrichment runs only when
like/comment/view are not all non-zero; it then overwrites every
counter for which the validated detail data holds a positive value
(keeping the prior value only where the detail value is not positive),
and leaves the record unchanged when validation rejects the detail
data. -/
theorem enrich_merge_amended (prior d : DouyinSpider.Counters) :
    (DouyinSpider.hasCompleteData prior = true →
      ∀ detail, DouyinSpider.enrichFromDetailPage prior detail = prior)
    ∧ (DouyinSpider.hasCompleteData prior = false →
        DouyinSpider.validateInteractionData d = true →
        DouyinSpider.enrichFromDetailPage prior (some d)
          = { like := if 0 < d.like then d.like else prior.like
              comment := if 0 < d.comment then d.comment else prior.comment
              view := if 0 < d.view then d.view else prior.view
              share := if 0 < d.share then d.share else prior.share
              collect := if 0 < d.collect then d.collect else prior.collect })
    ∧ (DouyinSpider.hasCompleteData prior = false →
        DouyinSpider.validateInteractionData d = false →
        DouyinSpider.enrichFromDetailPage prior (some d) = prior) := by
  refine ⟨fun hc detail => ?_, fun hc hv => ?_, fun hc hv => ?_⟩
  · simp [DouyinSpider.enrichFromDetailPage, hc]
  · simp [DouyinSpider.enrichFromDetailPage, hc, hv, DouyinSpider.mergeDetailCounters]
  · simp [DouyinSpider.enrichFromDetailPage, hc, hv]

/-- Witness for the amended C7 at the counterexample input. -/
theorem enrich_merge_amended_witness :
    DouyinSpider.enrichFromDetailPage ⟨100, 0, 0, 0, 0⟩ (some ⟨50, 3, 200, 0, 0⟩)
      = ⟨50, 3, 200, 0, 0⟩ := by
  rw [(enrich_merge_amended ⟨100, 0, 0, 0, 0⟩ ⟨50, 3, 200, 0, 0⟩).2.1
    (by decide) (by decide)]
  decide

/-- C8: on an element whose rendered text is exactly
`"8.3万赞 · 523评论 · 12.1万播放"`, the free-text strategy (the counter
patterns combined with `_parse_count`, which applies the 10000
multiplier when the matched text carries the `万`/`w` suffix) extracts
like_count = 83000, comment_count = 523 and view_count = 121000. -/
theorem free_text_scenario_counts :
    DouyinSpider.freeTextCounts "8.3万赞 · 523评论 · 12.1万播放" 0 0 0
      = (83000, 523, 121000) := by
  decide

lemma verifyGo_le (check : Nat → Bool) :
    ∀ l : List Nat, (DouyinSpider.verifyGo check l).1 ≤ 13 * l.length
  | [] => by simp [DouyinSpider.verifyGo]
  | [r] => by
      by_cases h : check r = true <;> simp [DouyinSpider.verifyGo, h]
  | r :: r2 :: rest => by
      have ih := verifyGo_le check (r2 :: rest)
      rw [DouyinSpider.verifyGo]
      by_cases h : check r = true
      · rw [if_pos h]
        simp only [List.length_cons]
        omega
      · rw [if_neg h]
        dsimp only
        simp only [List.length_cons] at ih ⊢
        omega

/-- C9: the login-wait phase always sleeps a bounded total time (at
most 190 s for any verification outcomes: the 120 s countdown, the 5 s
post-refresh wait, and at most five 13 s verification rounds); and when
the login wall never clears (every verification round fails) it sleeps
exactly 180 s and then proceeds to the degraded-continue or aborted
state — it never hangs. -/
theorem login_wait_bounded :
    (∀ (check : Nat → Bool) (user : Bool),
      (DouyinSpider.loginWaitPhase check user).1 ≤ 190)
    ∧ (∀ user : Bool,
        (DouyinSpider.loginWaitPhase (fun _ => false) user).1 = 180
        ∧ ((DouyinSpider.loginWaitPhase (fun _ => false) user).2
              = DouyinSpider.LoginOutcome.degradedContinue
            ∨ (DouyinSpider.loginWaitPhase (fun _ => false) user).2
              = DouyinSpider.LoginOutcome.aborted)) := by
  constructor
  · intro check user
    have h := verifyGo_le check (List.range 5)
    have hc : DouyinSpider.loginCountdownSleep = 120 := by decide
    simp only [DouyinSpider.loginWaitPhase, hc, List.length_range] at h ⊢
    omega
  · intro user
    cases user <;> exact ⟨by decide, by decide⟩

/-- C10 counterexample: `BilibiliSpider._parse_count` does not apply
the 10000 multiplier for a `w` suffix: on a match with
`group(0) = "5w"`, `group(1) = "5"` it returns 5, not 50000 (only the
Douyin variant checks `w`). -/
theorem bilibili_w_suffix_counterexample :
    BilibiliSpider.parseCount (some ("5w", "5")) = 5
    ∧ ("5w".data.contains 'w') = true
    ∧ BilibiliSpider.parseCount (some ("5w", "5")) ≠ 5 * 10000
    ∧ DouyinSpider.parseCount (some ("5w", "5")) = 5 * 10000 := by
  decide

/-- C10 amended: both `_parse_count` variants are total and
non-negative — 0 for a falsy match, for a numeral `float()` rejects,
and on the `OverflowError` of `int()` applied to an infinite float;
otherwise the value is `int(float(g) * 10000)` resp. `int(float(g))`
computed in IEEE-754 binary64 arithmetic (which can land one below the
exact decimal product, e.g. `1.13万` gives 11299), with the multiplier
applied when `group(0)` contains `万` — only the Douyin variant also
accepts `w`/`W`, so the two variants agree on every input whose matched
text has no `w`/`W`. -/
theorem parse_count_total_amended :
    (∀ m, 0 ≤ DouyinSpider.parseCount m ∧ 0 ≤ BilibiliSpider.parseCount m)
    ∧ (∀ full g : String, parseDecimal g = none →
        DouyinSpider.parseCount (some (full, g)) = 0
        ∧ BilibiliSpider.parseCount (some (full, g)) = 0)
    ∧ (∀ (full g : String) (num den : Nat), parseDecimal g = some (num, den) →
        (DouyinSpider.parseCount (some (full, g))
            = if full.data.contains '万' || full.data.contains 'w'
                  || full.data.contains 'W'
              then (((pyIntFloatTimes10000 num den).getD 0 : Nat) : Int)
              else (((pyIntFloat num den).getD 0 : Nat) : Int))
        ∧ BilibiliSpider.parseCount (some (full, g))
            = if full.data.contains '万'
              then (((pyIntFloatTimes10000 num den).getD 0 : Nat) : Int)
              else (((pyIntFloat num den).getD 0 : Nat) : Int))
    ∧ (∀ (full g : String),
        (full.data.contains '万' = true
          ∨ (full.data.contains 'w' = false ∧ full.data.contains 'W' = false)) →
        DouyinSpider.parseCount (some (full, g))
          = BilibiliSpider.parseCount (some (full, g)))
    ∧ DouyinSpider.parseCount (some ("1.13万", "1.13")) = 11299
    ∧ BilibiliSpider.parseCount (some ("0.57万", "0.57")) = 5699 := by
  have hnn : ∀ o : Option Nat, 0 ≤ intOfCount o := by
    intro o
    cases o <;> simp [intOfCount]
  have hgd : ∀ o : Option Nat, intOfCount o = ((o.getD 0 : Nat) : Int) := by
    intro o
    cases o <;> simp [intOfCount]
  refine ⟨fun m => ?_, fun full g h => ?_, fun full g num den h => ?_,
    fun full g hd => ?_, by decide, by decide⟩
  · cases m with
    | none => exact ⟨le_refl 0, le_refl 0⟩
    | some pr =>
        obtain ⟨full, g⟩ := pr
        simp only [DouyinSpider.parseCount, BilibiliSpider.parseCount]
        cases parseDecimal g with
        | none => exact ⟨le_refl 0, le_refl 0⟩
        | some nd =>
            obtain ⟨num, den⟩ := nd
            constructor <;> split_ifs <;> exact hnn _
  · simp [DouyinSpider.parseCount, BilibiliSpider.parseCount, h]
  · constructor <;>
      · simp only [DouyinSpider.parseCount, BilibiliSpider.parseCount, h]
        split_ifs <;> exact hgd _
  · simp only [DouyinSpider.parseCount, BilibiliSpider.parseCount]
    cases parseDecimal g with
    | none => rfl
    | some nd =>
        obtain ⟨num, den⟩ := nd
        rcases hd with h1 | ⟨hw, hW⟩
        · rw [h1]
          simp
        · rw [hw, hW]
          simp

/-- Witness for the amended C10: the numeral `"1.13"` with matched text
`"1.13万"` parses to 11299 — the binary64 value of
`int(float("1.13") * 10000)`, one below the exact 11300. -/
theorem parse_count_total_amended_witness :
    DouyinSpider.parseCount (some ("1.13万", "1.13")) = 11299 := by
  rw [(parse_count_total_amended.2.2.1 "1.13万" "1.13" 113 100 (by decide)).1]
  decide
